import Mathlib

/-!
Verification of the Matching & Interaction Engine of the Legal-Mentors-Network
backend (mentor/mentee matching, swipe ledger, mutual-match detection,
discovery feed, legacy connection accumulator).

The TypeScript source is shallowly embedded: the record store (PocketBase) is
an explicit state value, every route handler is a state-passing function, and
fallible operations return `Except`.  The haversine distance (the external
`haversine-distance` npm package, floating-point trigonometry) is abstracted
as an explicit distance-function parameter `dist` taking the two
latitude/longitude pairs and returning metres; the library function is
mathematically symmetric, so theorems that need it take a symmetry hypothesis.
All thresholds and coordinates are rationals, timestamps are naturals, and
generated record ids are naturals drawn from a counter.
-/

namespace LMN

/-- User role, from `roleSchema = z.enum(['Mentor', 'Mentee'])` in
`src/models/User.ts`. -/
inductive Role where
  | Mentor
  | Mentee
deriving DecidableEq, Repr

/-- Swipe action, from `swipeActionSchema = z.enum(['like', 'pass'])` in the
swipes route. -/
inductive SwipeAction where
  | like
  | pass
deriving DecidableEq, Repr

/-- Stored user record (the PocketBase `user_for_match` row, `UserDTO` in
`src/models/User.ts`).  `maxDistance` is `Option` because the source applies
`dto.maxDistance ?? 0`, i.e. the stored field may be absent. -/
structure UserDTO where
  id : String
  name : String
  age : Int
  role : Role
  latitude : ℚ
  longitude : ℚ
  minAge : Int
  maxAge : Int
  maxDistance : Option ℚ
deriving DecidableEq, Repr

/-- Domain user model, with the fields the matching code reads
(`src/models/match.ts` accesses `age`, `minAge`, `maxAge`, `maxDistance`,
`latitude`, `longitude` directly on the user value). -/
structure User where
  id : String
  name : String
  age : Int
  role : Role
  latitude : ℚ
  longitude : ℚ
  minAge : Int
  maxAge : Int
  maxDistance : ℚ
deriving DecidableEq, Repr

/-- `transformUser` from `src/models/User.ts`: DTO-to-domain transformation;
`maxDistance: dto.maxDistance ?? 0` defaults an absent field to `0`. -/
def transformUser (dto : UserDTO) : User :=
  { id := dto.id
    name := dto.name
    age := dto.age
    role := dto.role
    latitude := dto.latitude
    longitude := dto.longitude
    minAge := dto.minAge
    maxAge := dto.maxAge
    maxDistance := dto.maxDistance.getD 0 }

/-- A `user_swipes` row: `user` swiped on `profile` with `action`.
`DATABASE_SETUP.md`: UNIQUE index on (`user`, `profile`). -/
structure SwipeRow where
  id : Nat
  user : String
  profile : String
  action : SwipeAction
  created : Nat
deriving DecidableEq, Repr

/-- A `matches` row. `DATABASE_SETUP.md`: UNIQUE index on (`user1`, `user2`). -/
structure MatchRow where
  id : Nat
  user1 : String
  user2 : String
  matchedAt : Nat
  conversationStarted : Bool
deriving DecidableEq, Repr

/-- A legacy `connections` row (`src/models/match.ts`): `initiator` plus an
append-only list of matched user ids. -/
structure ConnectionRow where
  id : Nat
  initiator : String
  connections : List String
deriving DecidableEq, Repr

/-- The record store plus the ambient clock and id counter. -/
structure DB where
  users : List UserDTO
  swipes : List SwipeRow
  «matches» : List MatchRow
  connections : List ConnectionRow
  nextId : Nat
  now : Nat
deriving DecidableEq, Repr

/-- Error taxonomy of the embedded routes.  `pbConstraint` stands for the
`ClientResponseError` with status 400 that PocketBase raises on a UNIQUE
index violation. -/
inductive ApiErr where
  | notFound (msg : String)
  | badRequest (msg : String)
  | pbConstraint
deriving DecidableEq, Repr

/-- `getUserById` from `src/models/User.ts`: `getFirstListItem` on
`user_for_match` (404 becomes `NotFoundError`), then `transformUser`. -/
def getUserById (db : DB) (id : String) : Except ApiErr User :=
  match db.users.find? (fun d => d.id == id) with
  | some dto => .ok (transformUser dto)
  | none => .error (.notFound ("User with id " ++ id ++ " not found"))

/-- `getUsersByRole` from `src/models/User.ts`: full list filtered by role,
each row transformed. -/
def getUsersByRole (db : DB) (role : Role) : List User :=
  (db.users.filter (fun d => d.role == role)).map transformUser

/-- `getMentees` from `src/models/User.ts`. -/
def getMentees (db : DB) : List User :=
  getUsersByRole db Role.Mentee

/-- `getMentors` from `src/models/User.ts`. -/
def getMentors (db : DB) : List User :=
  getUsersByRole db Role.Mentor

/-- `getUsersByIds` from `src/models/User.ts`: empty input short-circuits,
otherwise an `id="a" || id="b" || ...` filter — every stored row whose id is
in the list, in store order, each once. -/
def getUsersByIds (db : DB) (ids : List String) : List User :=
  if ids.isEmpty then []
  else (db.users.filter (fun d => ids.contains d.id)).map transformUser

/-- The opposite-role candidate pool: the `switch (currentUser.role)` used by
the legacy match route, the discovery route, and nothing else. -/
def oppositePool (db : DB) (role : Role) : List User :=
  match role with
  | Role.Mentee => getMentors db
  | Role.Mentor => getMentees db

/-- `isWithinRange` from `src/models/match.ts`.  `dist` abstracts the call to
the `haversine-distance` package (metres between two latitude/longitude
pairs); the body divides by 1000 to kilometres and then runs the source's
early-return threshold checks, in order: a zero `maxDistance` on the
*current* user's side returns `true` immediately, before the other side's
threshold is ever consulted. -/
def isWithinRange (dist : ℚ × ℚ → ℚ × ℚ → ℚ) (currentUser user : User) : Bool :=
  let distance := dist (currentUser.latitude, currentUser.longitude)
    (user.latitude, user.longitude)
  let distanceInKm := distance / 1000
  if currentUser.maxDistance == 0 then true
  else if distanceInKm > currentUser.maxDistance then false
  else if user.maxDistance == 0 then true
  else if distanceInKm > user.maxDistance then false
  else true

/-- The per-candidate filter body of `findMatches` in `src/models/match.ts`:
mutual inclusive age-range checks, then `isWithinRange`. -/
def isCompatible (dist : ℚ × ℚ → ℚ × ℚ → ℚ) (currentUser user : User) : Bool :=
  if user.age < currentUser.minAge || user.age > currentUser.maxAge then false
  else if currentUser.age < user.minAge || currentUser.age > user.maxAge then false
  else if !(isWithinRange dist currentUser user) then false
  else true

/-- `findMatches` from `src/models/match.ts`: order-preserving filter of the
pool by `isCompatible`. -/
def findMatches (dist : ℚ × ℚ → ℚ × ℚ → ℚ) (currentUser : User)
    (users : List User) : List User :=
  users.filter (isCompatible dist currentUser)

/-- `getConnection` from `src/models/match.ts`: `getFirstListItem` with
`initiator="userId"`; a 404 is caught and returned as `null`. -/
def getConnection (db : DB) (userId : String) : Option ConnectionRow :=
  db.connections.find? (fun c => c.initiator == userId)

/-- `createConnection` from `src/models/match.ts`: insert a fresh row with
the matched user ids. -/
def createConnection (db : DB) (userId : String) (matchedUserIds : List String) :
    DB × ConnectionRow :=
  let row : ConnectionRow :=
    { id := db.nextId, initiator := userId, connections := matchedUserIds }
  ({ db with connections := db.connections ++ [row], nextId := db.nextId + 1 }, row)

/-- `updateConnection` from `src/models/match.ts`: update the row in place,
its list becoming the old list with the new ids appended. -/
def updateConnection (db : DB) (connection : ConnectionRow)
    (newMatchedUserIds : List String) : DB × ConnectionRow :=
  let row : ConnectionRow :=
    { connection with connections := connection.connections ++ newMatchedUserIds }
  ({ db with
      connections := db.connections.map (fun c => if c.id == connection.id then row else c) },
    row)

/-- `saveMatches` from `src/models/match.ts`: create a connection row on
first use, otherwise append the new matched ids to the existing row. -/
def saveMatches (db : DB) (userId : String) (matchedUsers : List User) :
    DB × ConnectionRow :=
  let matchedUserIds := matchedUsers.map (fun u => u.id)
  match getConnection db userId with
  | none => createConnection db userId matchedUserIds
  | some existingConnection => updateConnection db existingConnection matchedUserIds

/-- Response shape of the legacy `GET /match/:id` route. -/
structure MatchResponse where
  «matches» : List User
  message : String
deriving DecidableEq, Repr

/-- The body of the legacy `GET /match/:id` route handler in
`src/routes/match-user.ts`, after the upstream UUID-format validation of the
path parameter (a failure there is a `BadRequestError` thrown before this
body runs): load the user, load the opposite-role pool, filter with
`findMatches`; with no matches answer success with an empty list and save
nothing, otherwise `saveMatches` and resolve the accumulated ids. -/
def matchUserHandler (dist : ℚ × ℚ → ℚ × ℚ → ℚ) (db : DB) (id : String) :
    Except ApiErr (DB × MatchResponse) :=
  match getUserById db id with
  | .error e => .error e
  | .ok currentUser =>
    let potentialMatches := oppositePool db currentUser.role
    let foundMatches := findMatches dist currentUser potentialMatches
    if foundMatches.isEmpty then
      .ok (db, { «matches» := []
                 message := "Could not find any connections that meet your search criteria. Try broadening your search to get more matches" })
    else
      let (db1, connection) := saveMatches db currentUser.id foundMatches
      let matchedUsers := getUsersByIds db1 connection.connections
      .ok (db1, { «matches» := matchedUsers
                  message := if matchedUsers.length == 1 then "Found 1 connection"
                    else "Found " ++ toString matchedUsers.length ++ " connections" })

/-- `queryParamsSchema` of the discovery route:
`limit: z.coerce.number().int().min(1).optional().default(20).transform(min(val,50))`
and `offset: z.coerce.number().int().min(0).optional().default(0)`.
A provided limit below 1 or offset below 0 fails validation; an absent field
takes its default; the cap at 50 runs only after validation passed. -/
def queryParamsParse (limit? offset? : Option Int) : Except Unit (Int × Int) :=
  match limit? with
  | some v =>
    if v < 1 then .error ()
    else
      match offset? with
      | some w => if w < 0 then .error () else .ok (min v 50, w)
      | none => .ok (min v 50, 0)
  | none =>
    match offset? with
    | some w => if w < 0 then .error () else .ok (20, w)
    | none => .ok (20, 0)

/-- The already-swiped profile ids of a user: the discovery route's
`user_swipes` query with filter `user = "userId"`, mapped to `r.profile`
(any action, like or pass). -/
def swipedProfileIds (db : DB) (userId : String) : List String :=
  (db.swipes.filter (fun s => s.user == userId)).map (fun s => s.profile)

/-- `availableMatches` of the discovery route: the algorithm matches with
already-swiped profiles filtered out, pool order preserved. -/
def availableMatches (dist : ℚ × ℚ → ℚ × ℚ → ℚ) (db : DB) (currentUser : User)
    (userId : String) : List User :=
  (findMatches dist currentUser (oppositePool db currentUser.role)).filter
    (fun u => !((swipedProfileIds db userId).contains u.id))

/-- Response shape of `GET /users/:userId/discovery`. -/
structure DiscoveryResponse where
  profiles : List User
  hasMore : Bool
  nextOffset : Int
  total : Int
deriving DecidableEq, Repr

/-- The body of the discovery route handler (after parameter validation):
slice the available matches, `hasMore = offset + limit < total`,
`nextOffset = hasMore ? offset + limit : offset`. -/
def discoveryHandler (dist : ℚ × ℚ → ℚ × ℚ → ℚ) (db : DB) (userId : String)
    (limit offset : Int) : Except ApiErr DiscoveryResponse :=
  match getUserById db userId with
  | .error e => .error e
  | .ok currentUser =>
    let available := availableMatches dist db currentUser userId
    let total : Int := available.length
    let paginatedMatches := (available.drop offset.toNat).take limit.toNat
    let hasMore := offset + limit < total
    let nextOffset := if hasMore then offset + limit else offset
    .ok { profiles := paginatedMatches
          hasMore := hasMore
          nextOffset := nextOffset
          total := total }

/-- The full discovery route: validate query parameters first (failure is a
`BadRequestError` before any store access), then run the handler body. -/
def discoveryRoute (dist : ℚ × ℚ → ℚ × ℚ → ℚ) (db : DB) (userId : String)
    (limit? offset? : Option Int) : Except ApiErr DiscoveryResponse :=
  match queryParamsParse limit? offset? with
  | .error _ => .error (.badRequest "Invalid query parameters.")
  | .ok (limit, offset) => discoveryHandler dist db userId limit offset

/-- The `MatchRecord` response type of the swipes route: the created match
row joined with the full profile of the other party. -/
structure MatchRecord where
  id : Nat
  user1 : String
  user2 : String
  matchedAt : Nat
  conversationStarted : Bool
  profile : User
deriving DecidableEq, Repr

/-- Response shape of `POST /users/:userId/swipes` (`SwipeResponse` in the
source; the `match` field is `matchRec` here because `match` is reserved). -/
structure SwipeResponse where
  swipe : SwipeRow
  matchRec : Option MatchRecord
  message : String
deriving DecidableEq, Repr

/-- Outcome of the swipes route: a JSON success body, or the directly
returned 409 conflict body for a duplicate swipe. -/
inductive SwipeRouteResult where
  | ok (r : SwipeResponse)
  | conflict (msg : String)
deriving DecidableEq, Repr

/-- `checkMutualMatch` from the swipes route.  Its `try` block looks up the
reverse like (`getFirstListItem`, whose 404 is the only error the `catch`
turns into `null`), sorts the pair — JavaScript `[userId, profileId].sort()`
on two strings — creates the `matches` row, and joins the other party's
profile.  The create call is *not* guarded: when the canonical pair already
exists, the UNIQUE `idx_matches_unique` index makes PocketBase answer with
status 400, which the `catch` re-throws. -/
def checkMutualMatch (db : DB) (userId profileId : String) :
    Except ApiErr (DB × Option MatchRecord) :=
  match db.swipes.find? (fun s =>
      s.user == profileId && s.profile == userId && s.action == SwipeAction.like) with
  | none => .ok (db, none)
  | some _ =>
    let user1 := if userId ≤ profileId then userId else profileId
    let user2 := if userId ≤ profileId then profileId else userId
    if db.«matches».any (fun m => m.user1 == user1 && m.user2 == user2) then
      .error .pbConstraint
    else
      let row : MatchRow :=
        { id := db.nextId, user1 := user1, user2 := user2,
          matchedAt := db.now, conversationStarted := false }
      let db1 := { db with «matches» := db.«matches» ++ [row], nextId := db.nextId + 1 }
      match getUserById db1 profileId with
      | .error e => .error e
      | .ok profile =>
        .ok (db1, some { id := row.id, user1 := row.user1, user2 := row.user2,
                         matchedAt := row.matchedAt,
                         conversationStarted := row.conversationStarted,
                         profile := profile })

/-- `POST /users/:userId/swipes` from the swipes route: validate the body
(`profileId` non-empty, `action` an enum member — the latter is enforced by
the `SwipeAction` type here), verify both users exist, insert the swipe row
(a duplicate ordered pair violates the UNIQUE `idx_user_swipes_unique` index
and is answered directly with the 409 body), then run the mutual-match check
for a `like`. -/
def recordSwipe (db : DB) (userId profileId : String) (action : SwipeAction) :
    Except ApiErr (DB × SwipeRouteResult) :=
  if profileId.length < 1 then .error (.badRequest "Invalid request body")
  else
    match getUserById db userId with
    | .error _ => .error (.notFound ("User with id " ++ userId ++ " not found"))
    | .ok _ =>
      match getUserById db profileId with
      | .error _ => .error (.notFound ("Profile with id " ++ profileId ++ " not found"))
      | .ok _ =>
        if db.swipes.any (fun s => s.user == userId && s.profile == profileId) then
          .ok (db, .conflict "Already swiped this profile")
        else
          let swipe : SwipeRow :=
            { id := db.nextId, user := userId, profile := profileId,
              action := action, created := db.now }
          let db1 := { db with swipes := db.swipes ++ [swipe], nextId := db.nextId + 1 }
          match (if action == SwipeAction.like then checkMutualMatch db1 userId profileId
                 else .ok (db1, none)) with
          | .error e => .error e
          | .ok (db2, m) =>
            .ok (db2, .ok { swipe := swipe, matchRec := m,
                            message := if m.isSome then "It's a match!" else "Swipe recorded" })

/-- One entry of the mutual-matches response: the match row joined with the
counterpart's profile. -/
structure MatchItem where
  matchId : Nat
  profile : User
  matchedAt : Nat
  conversationStarted : Bool
deriving DecidableEq, Repr

/-- Response shape of `GET /users/:userId/matches`. -/
structure MatchesResponse where
  «matches» : List MatchItem
  count : Nat
deriving DecidableEq, Repr

/-- The store's `sort: '-matchedAt'` on the `matches` collection: most
recent first. -/
def sortByMatchedAtDesc (rows : List MatchRow) : List MatchRow :=
  rows.mergeSort (fun a b => b.matchedAt ≤ a.matchedAt)

/-- JavaScript `new Map(profiles.map(p => [p.id, p])).get(key)`: on duplicate
ids the later entry overwrites, so the lookup returns the last profile with
the key. -/
def profileMapGet (profiles : List User) (key : String) : Option User :=
  profiles.reverse.find? (fun p => p.id == key)

/-- `GET /users/:userId/matches` from `src/routes/match-user.ts` (the mutual
matches route): all match rows with the user on either side, most recent
first, each joined with the counterpart's profile via `getUsersByIds`; an
entry whose profile is missing is dropped (`return null` plus the
`filter(m => m !== null)`); `count` is the length of what remains. -/
def getMutualMatches (db : DB) (userId : String) : MatchesResponse :=
  let matchRecords := sortByMatchedAtDesc
    (db.«matches».filter (fun m => m.user1 == userId || m.user2 == userId))
  let matchData := matchRecords.map (fun m =>
    (m.id, if m.user1 == userId then m.user2 else m.user1, m.matchedAt,
      m.conversationStarted))
  if matchData.isEmpty then { «matches» := [], count := 0 }
  else
    let matchedUserIds := matchData.map (fun m => m.2.1)
    let profiles := getUsersByIds db matchedUserIds
    let enrichedMatches := matchData.filterMap (fun m =>
      match profileMapGet profiles m.2.1 with
      | none => none
      | some profile =>
        some { matchId := m.1, profile := profile, matchedAt := m.2.2.1,
               conversationStarted := m.2.2.2 })
    { «matches» := enrichedMatches, count := enrichedMatches.length }

/-! ## Compatibility predicate: symmetry analysis -/

/-- The distance threshold check is symmetric whenever the two users' zero /
non-zero `maxDistance` status agrees (given a symmetric distance function). -/
theorem isWithinRange_symm (dist : ℚ × ℚ → ℚ × ℚ → ℚ)
    (hsym : ∀ p q, dist p q = dist q p) (a b : User)
    (h0 : a.maxDistance = 0 ↔ b.maxDistance = 0) :
    isWithinRange dist a b = isWithinRange dist b a := by
  unfold isWithinRange
  rw [hsym (b.latitude, b.longitude) (a.latitude, a.longitude)]
  by_cases ha : a.maxDistance = 0
  · have hb : b.maxDistance = 0 := h0.mp ha
    simp [ha, hb]
  · have hb : ¬ b.maxDistance = 0 := fun h => ha (h0.mpr h)
    by_cases h1 : dist (a.latitude, a.longitude) (b.latitude, b.longitude) / 1000
        > a.maxDistance
      <;> by_cases h2 : dist (a.latitude, a.longitude) (b.latitude, b.longitude) / 1000
        > b.maxDistance
      <;> simp [ha, hb, h1, h2]

/-- A symmetric-by-construction distance function used in the symmetry
counterexample: a constant 20 000 000 metres (20 000 km) between any two
points, far beyond any 500 km-capped threshold. -/
def distFarC1 : ℚ × ℚ → ℚ × ℚ → ℚ := fun _ _ => 20000000

/-- Counterexample user: 30-year-old mentor with `maxDistance = 0`. -/
def alphaC1 : User :=
  { id := "a1", name := "Alpha", age := 30, role := Role.Mentor,
    latitude := 0, longitude := 0, minAge := 25, maxAge := 35, maxDistance := 0 }

/-- Counterexample user: 30-year-old mentee with `maxDistance = 50`. -/
def betaC1 : User :=
  { id := "b1", name := "Beta", age := 30, role := Role.Mentee,
    latitude := 10, longitude := 10, minAge := 25, maxAge := 35, maxDistance := 50 }

/-- C1 counterexample: the claimed symmetry of the compatibility predicate is
false on the code.  With a symmetric distance function returning 20 000 km,
`alphaC1` (maxDistance 0) against `betaC1` (maxDistance 50) is compatible —
the zero threshold returns `true` before `betaC1`'s 50 km threshold is ever
checked — while the reverse direction is incompatible. -/
theorem C1_counterexample :
    isCompatible distFarC1 alphaC1 betaC1 = true ∧
      isCompatible distFarC1 betaC1 alphaC1 = false := by
  refine ⟨by decide, ?_⟩
  simp only [isCompatible, isWithinRange, distFarC1, betaC1, alphaC1]
  norm_num

/-- C1 (amended): with a symmetric distance function, `isCompatible` is
symmetric for every pair whose `maxDistance` values are both zero or both
non-zero; and a zero `maxDistance` on the current user's side makes the
distance check pass unconditionally, exempting the pair from the other
side's threshold. -/
theorem C1_symmetry_amended (dist : ℚ × ℚ → ℚ × ℚ → ℚ)
    (hsym : ∀ p q, dist p q = dist q p) :
    (∀ a b : User, (a.maxDistance = 0 ↔ b.maxDistance = 0) →
      isCompatible dist a b = isCompatible dist b a) ∧
    (∀ a b : User, a.maxDistance = 0 → isWithinRange dist a b = true) := by
  constructor
  · intro a b h0
    unfold isCompatible
    rw [isWithinRange_symm dist hsym a b h0]
    by_cases h1 : b.age < a.minAge
      <;> by_cases h2 : b.age > a.maxAge
      <;> by_cases h3 : a.age < b.minAge
      <;> by_cases h4 : a.age > b.maxAge
      <;> simp [h1, h2, h3, h4]
  · intro a b ha
    unfold isWithinRange
    simp [ha]

/-- C1 witness: the amended symmetry theorem applied to a concrete symmetric
distance function and a concrete pair with agreeing zero thresholds. -/
theorem C1_witness :
    isCompatible distFarC1 alphaC1 alphaC1 = isCompatible distFarC1 alphaC1 alphaC1 ∧
      isWithinRange distFarC1 alphaC1 betaC1 = true := by
  have h := C1_symmetry_amended distFarC1 (fun _ _ => rfl)
  exact ⟨h.1 alphaC1 alphaC1 (Iff.rfl), h.2 alphaC1 betaC1 (by decide)⟩

/-! ## Defaulted `maxDistance` (C10) -/

/-- C10: in a store whose user records all lack the `maxDistance` field,
every load path — `getUserById`, `getUsersByRole`, `getUsersByIds` — yields
users with `maxDistance = 0`; a zero `maxDistance` on the current side makes
the distance check pass unconditionally, and on the candidate side it makes
the check depend only on the current user's own threshold.  Such a user
therefore imposes no distance constraint of their own in any compatibility
check. -/
theorem C10_maxDistance_default (db : DB)
    (hnone : ∀ d ∈ db.users, d.maxDistance = none)
    (dist : ℚ × ℚ → ℚ × ℚ → ℚ) :
    (∀ id u, getUserById db id = Except.ok u → u.maxDistance = 0) ∧
    (∀ role, ∀ u ∈ getUsersByRole db role, u.maxDistance = 0) ∧
    (∀ ids, ∀ u ∈ getUsersByIds db ids, u.maxDistance = 0) ∧
    (∀ a b : User, a.maxDistance = 0 → isWithinRange dist a b = true) ∧
    (∀ a b : User, b.maxDistance = 0 → isWithinRange dist a b =
      (a.maxDistance == 0 ||
        !(dist (a.latitude, a.longitude) (b.latitude, b.longitude) / 1000
          > a.maxDistance))) := by
  have htrans : ∀ d ∈ db.users, (transformUser d).maxDistance = 0 := by
    intro d hd
    simp [transformUser, hnone d hd]
  refine ⟨?_, ?_, ?_, ?_, ?_⟩
  · intro id u hu
    unfold getUserById at hu
    rcases hfind : db.users.find? (fun d => d.id == id) with _ | dto
    · rw [hfind] at hu; exact absurd hu (by simp)
    · rw [hfind] at hu
      have : u = transformUser dto := by
        simpa using hu.symm
      rw [this]
      exact htrans dto (List.mem_of_find?_eq_some hfind)
  · intro role u hu
    unfold getUsersByRole at hu
    rcases List.mem_map.mp hu with ⟨d, hd, rfl⟩
    exact htrans d (List.mem_of_mem_filter hd)
  · intro ids u hu
    unfold getUsersByIds at hu
    by_cases hids : ids.isEmpty
    · simp [hids] at hu
    · simp only [hids, if_false] at hu
      rcases List.mem_map.mp hu with ⟨d, hd, rfl⟩
      exact htrans d (List.mem_of_mem_filter hd)
  · intro a b ha
    unfold isWithinRange
    simp [ha]
  · intro a b hb
    unfold isWithinRange
    by_cases ha : a.maxDistance = 0
    · simp [ha, hb]
    · by_cases h1 : dist (a.latitude, a.longitude) (b.latitude, b.longitude) / 1000
          > a.maxDistance
        <;> simp [ha, hb, h1]

/-- C10 concrete store record (mentor, `maxDistance` field absent). -/
def dtoW10a : UserDTO :=
  { id := "u1", name := "U One", age := 30, role := Role.Mentor,
    latitude := 1, longitude := 2, minAge := 25, maxAge := 35,
    maxDistance := none }

/-- C10 concrete store record (mentee, `maxDistance` field absent). -/
def dtoW10b : UserDTO :=
  { id := "u2", name := "U Two", age := 28, role := Role.Mentee,
    latitude := 3, longitude := 4, minAge := 20, maxAge := 40,
    maxDistance := none }

/-- C10 concrete store: the two records above, nothing else. -/
def dbW10 : DB :=
  { users := [dtoW10a, dtoW10b],
    swipes := [], «matches» := [], connections := [], nextId := 1, now := 0 }

/-- A concrete symmetric distance function (20 000 km everywhere) for the
C10 witness. -/
def distW10 : ℚ × ℚ → ℚ × ℚ → ℚ := fun _ _ => 20000000

/-- C10 witness: on `dbW10`, the user loaded by id is the transformed first
record, its defaulted `maxDistance` is 0, the same user comes back from the
role and id-list load paths, and it passes the distance check against the
other record despite the huge distance. -/
theorem C10_witness :
    getUserById dbW10 "u1" = Except.ok (transformUser dtoW10a) ∧
      (transformUser dtoW10a).maxDistance = 0 ∧
      transformUser dtoW10a ∈ getUsersByRole dbW10 Role.Mentor ∧
      transformUser dtoW10a ∈ getUsersByIds dbW10 ["u1"] ∧
      isWithinRange distW10 (transformUser dtoW10a) (transformUser dtoW10b) = true := by
  have h := C10_maxDistance_default dbW10 (by decide) distW10
  have hok : getUserById dbW10 "u1" = Except.ok (transformUser dtoW10a) := by rfl
  exact ⟨hok, h.1 "u1" _ hok, by decide, by decide,
    h.2.2.2.1 _ _ (h.1 "u1" _ hok)⟩

/-! ## Discovery parameter validation (C6) -/

/-- C6: discovery's pagination parameters are validated, not repaired: a
supplied `limit` below 1 fails validation whatever the offset, a supplied
`offset` below 0 fails validation whatever the limit, a valid `limit` above
50 is capped to exactly 50, and a validation failure makes the route answer
`BadRequestError` on every store state, before any computation. -/
theorem C6_query_param_validation (l o : Int) (hl : l < 1) (ho : o < 0)
    (l' o' : Int) (h50 : 50 < l') (ho' : 0 ≤ o') :
    (∀ offArg, queryParamsParse (some l) offArg = Except.error ()) ∧
    (∀ limArg, queryParamsParse limArg (some o) = Except.error ()) ∧
    queryParamsParse (some l') (some o') = Except.ok (50, o') ∧
    (∀ dist db userId offArg,
      discoveryRoute dist db userId (some l) offArg =
        Except.error (.badRequest "Invalid query parameters.")) := by
  have hparse : ∀ offArg, queryParamsParse (some l) offArg = Except.error () := by
    intro offArg
    simp [queryParamsParse, hl]
  refine ⟨hparse, ?_, ?_, ?_⟩
  · intro limArg
    rcases limArg with _ | v
    · simp [queryParamsParse, ho, not_le.mpr ho]
    · by_cases hv : v < 1 <;> simp [queryParamsParse, hv, ho, not_le.mpr ho]
  · have : ¬ l' < 1 := by omega
    have h50' : min l' 50 = 50 := min_eq_right (by omega)
    simp [queryParamsParse, this, not_lt.mpr ho', h50']
  · intro dist db userId offArg
    simp [discoveryRoute, hparse offArg]

/-- C6 witness: a zero limit and a negative offset are rejected, a limit of
99 with offset 5 parses to exactly `(50, 5)`, and the rejection surfaces as
the route's bad-request error. -/
theorem C6_witness :
    queryParamsParse (some 0) (some 5) = Except.error () ∧
      queryParamsParse (some 20) (some (-1)) = Except.error () ∧
      queryParamsParse (some 99) (some 5) = Except.ok (50, 5) ∧
      discoveryRoute distW10 dbW10 "u1" (some 0) (some 5) =
        Except.error (.badRequest "Invalid query parameters.") := by
  have h := C6_query_param_validation 0 (-1) (by decide) (by decide)
    99 5 (by decide) (by decide)
  exact ⟨h.1 (some 5), h.2.1 (some 20), h.2.2.1, h.2.2.2 distW10 dbW10 "u1" (some 5)⟩

/-! ## Discovery pagination (C4) -/

/-- C4: for an existing user and validated parameters (`1 ≤ limit ≤ 50`,
`0 ≤ offset`), discovery succeeds with `total` the length of the available
list (compatible, not yet swiped, pool order preserved — `availableMatches`),
`profiles` the slice `available[offset : offset+limit]` (so at most `limit`
long, and empty once `offset ≥ total`), `hasMore = (offset + limit < total)`,
and `nextOffset = offset + limit` when there is more, else the caller's
`offset` unchanged. -/
theorem C4_discovery_pagination (dist : ℚ × ℚ → ℚ × ℚ → ℚ) (db : DB)
    (userId : String) (currentUser : User)
    (hcur : getUserById db userId = Except.ok currentUser)
    (limit offset : Int) (hl1 : 1 ≤ limit) (hl50 : limit ≤ 50) (ho : 0 ≤ offset) :
    ∃ resp, discoveryHandler dist db userId limit offset = Except.ok resp ∧
      resp.total = (availableMatches dist db currentUser userId).length ∧
      resp.profiles =
        ((availableMatches dist db currentUser userId).drop offset.toNat).take limit.toNat ∧
      resp.profiles.length ≤ limit.toNat ∧
      (resp.total ≤ offset → resp.profiles = []) ∧
      resp.hasMore = decide (offset + limit < resp.total) ∧
      resp.nextOffset = (if offset + limit < resp.total then offset + limit else offset) := by
  unfold discoveryHandler
  rw [hcur]
  refine ⟨_, rfl, rfl, rfl, ?_, ?_, rfl, rfl⟩
  · simp only [List.length_take]
    exact min_le_left _ _
  · intro htot
    dsimp only at htot ⊢
    have hlen : (availableMatches dist db currentUser userId).length ≤ offset.toNat := by
      omega
    simp [List.drop_eq_nil_of_le hlen]

/-- C4 concrete store: one mentor (the caller), one compatible mentee with
zero thresholds on both sides, no swipes. -/
def dbW4 : DB :=
  { users := [
      { id := "m1", name := "Mentor", age := 30, role := Role.Mentor,
        latitude := 0, longitude := 0, minAge := 25, maxAge := 35,
        maxDistance := some 0 },
      { id := "e1", name := "Mentee", age := 28, role := Role.Mentee,
        latitude := 0, longitude := 0, minAge := 20, maxAge := 40,
        maxDistance := some 0 }],
    swipes := [], «matches» := [], connections := [], nextId := 1, now := 0 }

/-- Zero distance function for the C4 witness. -/
def distW4 : ℚ × ℚ → ℚ × ℚ → ℚ := fun _ _ => 0

/-- C4 witness: the pagination theorem applied to `dbW4` with
`limit = 20`, `offset = 0`. -/
theorem C4_witness :
    ∃ resp, discoveryHandler distW4 dbW4 "m1" 20 0 = Except.ok resp ∧
      resp.total = (availableMatches distW4 dbW4 (transformUser (
        { id := "m1", name := "Mentor", age := 30, role := Role.Mentor,
          latitude := 0, longitude := 0, minAge := 25, maxAge := 35,
          maxDistance := some 0 })) "m1").length ∧
      resp.profiles = ((availableMatches distW4 dbW4 (transformUser (
        { id := "m1", name := "Mentor", age := 30, role := Role.Mentor,
          latitude := 0, longitude := 0, minAge := 25, maxAge := 35,
          maxDistance := some 0 })) "m1").drop (0 : Int).toNat).take (20 : Int).toNat ∧
      resp.profiles.length ≤ (20 : Int).toNat ∧
      (resp.total ≤ 0 → resp.profiles = []) ∧
      resp.hasMore = decide ((0 : Int) + 20 < resp.total) ∧
      resp.nextOffset = (if (0 : Int) + 20 < resp.total then 0 + 20 else 0) :=
  C4_discovery_pagination distW4 dbW4 "m1" _ rfl 20 0 (by decide) (by decide) (by decide)

/-! ## Legacy match route: no write on empty result (C9) -/

/-- C9: when the compatibility filter yields no candidates for an existing
user, the legacy match route answers success with an empty list and the
"could not find" message, and returns the store exactly as it was — no
Connection row created or updated. -/
theorem C9_empty_no_write (dist : ℚ × ℚ → ℚ × ℚ → ℚ) (db : DB) (id : String)
    (currentUser : User) (hcur : getUserById db id = Except.ok currentUser)
    (hempty : findMatches dist currentUser (oppositePool db currentUser.role) = []) :
    matchUserHandler dist db id = Except.ok (db,
      { «matches» := []
        message := "Could not find any connections that meet your search criteria. Try broadening your search to get more matches" }) := by
  unfold matchUserHandler
  rw [hcur]
  simp [hempty]

/-- C9 concrete store: a single mentor and nobody of the opposite role, plus
a pre-existing unrelated Connection row (to make "no write" observable). -/
def dbW9 : DB :=
  { users := [
      { id := "m9", name := "Lone Mentor", age := 30, role := Role.Mentor,
        latitude := 0, longitude := 0, minAge := 25, maxAge := 35,
        maxDistance := some 0 }],
    swipes := [], «matches» := [],
    connections := [{ id := 7, initiator := "zz", connections := ["q"] }],
    nextId := 8, now := 0 }

/-- C9 witness: on `dbW9` the handler returns the untouched store and the
empty-match success message. -/
theorem C9_witness :
    matchUserHandler distW4 dbW9 "m9" = Except.ok (dbW9,
      { «matches» := []
        message := "Could not find any connections that meet your search criteria. Try broadening your search to get more matches" }) :=
  C9_empty_no_write distW4 dbW9 "m9" _ rfl (by decide)

/-! ## Duplicate swipe conflict (C3) -/

/-- C3: when a Swipe row already exists for the ordered pair
`(userId, profileId)` and both users exist, a second `recordSwipe` with any
action answers the 409 conflict body and returns the store untouched: the
original Swipe row stands and no Swipe or Match row is written. -/
theorem C3_duplicate_swipe_conflict (db : DB) (userId profileId : String)
    (action : SwipeAction) (ua ub : User)
    (hu : getUserById db userId = Except.ok ua)
    (hp : getUserById db profileId = Except.ok ub)
    (hlen : 1 ≤ profileId.length)
    (s : SwipeRow) (hs : s ∈ db.swipes) (hsu : s.user = userId)
    (hsp : s.profile = profileId) :
    recordSwipe db userId profileId action =
      Except.ok (db, .conflict "Already swiped this profile") := by
  unfold recordSwipe
  rw [hu, hp]
  have hdup : db.swipes.any (fun s => s.user == userId && s.profile == profileId) = true :=
    List.any_eq_true.mpr ⟨s, hs, by simp [hsu, hsp]⟩
  simp [hdup, Nat.not_lt.mpr hlen]

/-- C3 concrete store: two users and Alice's existing like on Bob. -/
def dbW3 : DB :=
  { users := [
      { id := "alice", name := "Alice", age := 30, role := Role.Mentor,
        latitude := 0, longitude := 0, minAge := 25, maxAge := 35,
        maxDistance := some 50 },
      { id := "bob", name := "Bob", age := 28, role := Role.Mentee,
        latitude := 0, longitude := 0, minAge := 28, maxAge := 40,
        maxDistance := some 0 }],
    swipes := [{ id := 3, user := "alice", profile := "bob",
                 action := SwipeAction.like, created := 10 }],
    «matches» := [], connections := [], nextId := 4, now := 11 }

/-- C3 witness: Alice swiping Bob a second time (now as a pass) gets the 409
body and leaves the store — and hence her first like — untouched. -/
theorem C3_witness :
    recordSwipe dbW3 "alice" "bob" SwipeAction.pass =
      Except.ok (dbW3, .conflict "Already swiped this profile") :=
  C3_duplicate_swipe_conflict dbW3 "alice" "bob" SwipeAction.pass _ _ rfl rfl
    (by decide) (dbW3.swipes.get ⟨0, by decide⟩) (by decide) rfl rfl

/-! ## Self-swipe edge case (C8) -/

/-- Every Match row is backed by a like-direction Swipe row on one of its two
orientations.  This holds in every store reachable through `recordSwipe` from
an empty store, since `checkMutualMatch` creates a Match only after the
actor's own swipe was written and the reverse like was found. -/
def matchImpliesSwipe (db : DB) : Prop :=
  ∀ m ∈ db.«matches», ∃ s ∈ db.swipes,
    (s.user = m.user1 ∧ s.profile = m.user2) ∨
    (s.user = m.user2 ∧ s.profile = m.user1)

/-- C8: a first self-swipe `RecordSwipe(u, u, like)` on an existing user `u`
succeeds and immediately creates and returns a Match whose two parties are
both `u`: the mutual check finds the self-swipe just written as the "reverse"
like, so no second like (and no compatibility check) is involved.  The
`matchImpliesSwipe` hypothesis rules out a pre-existing `(u, u)` Match, which
cannot arise without a prior `(u, u)` swipe. -/
theorem C8_self_swipe_match (db : DB) (u : String) (dto : UserDTO)
    (hfind : db.users.find? (fun d => d.id == u) = some dto)
    (hlen : 1 ≤ u.length)
    (hnoswipe : ∀ s ∈ db.swipes, ¬(s.user = u ∧ s.profile = u))
    (hinv : matchImpliesSwipe db) :
    ∃ db', recordSwipe db u u SwipeAction.like = Except.ok (db', .ok
      { swipe := { id := db.nextId, user := u, profile := u,
                   action := SwipeAction.like, created := db.now }
        matchRec := some { id := db.nextId + 1, user1 := u, user2 := u,
                           matchedAt := db.now, conversationStarted := false,
                           profile := transformUser dto }
        message := "It's a match!" }) ∧
      ({ id := db.nextId + 1, user1 := u, user2 := u, matchedAt := db.now,
         conversationStarted := false } : MatchRow) ∈ db'.«matches» := by
  have hget : getUserById db u = Except.ok (transformUser dto) := by
    unfold getUserById
    rw [hfind]
  have hnodup : db.swipes.any (fun s => s.user == u && s.profile == u) = false := by
    rw [List.any_eq_false]
    intro s hs
    simp only [Bool.and_eq_true, beq_iff_eq, not_and]
    intro h1 h2
    exact absurd ⟨h1, h2⟩ (hnoswipe s hs)
  have hnomatch : db.«matches».any (fun m => m.user1 == u && m.user2 == u) = false := by
    rw [List.any_eq_false]
    intro m hm
    simp only [Bool.and_eq_true, beq_iff_eq, not_and]
    intro h1 h2
    rcases hinv m hm with ⟨s, hs, hcase⟩
    rcases hcase with ⟨hsu, hsp⟩ | ⟨hsu, hsp⟩
    · exact absurd ⟨hsu.trans h1, hsp.trans h2⟩ (hnoswipe s hs)
    · exact absurd ⟨hsu.trans h2, hsp.trans h1⟩ (hnoswipe s hs)
  set swipe : SwipeRow := ({ id := db.nextId, user := u, profile := u, action := SwipeAction.like, created := db.now } : SwipeRow) with hswipe
  set db1 : DB := ({ db with swipes := db.swipes ++ [swipe], nextId := db.nextId + 1 } : DB) with hdb1
  set row : MatchRow := ({ id := db1.nextId, user1 := u, user2 := u, matchedAt := db1.now, conversationStarted := false } : MatchRow) with hrow
  set db2 : DB := ({ db1 with «matches» := db1.«matches» ++ [row], nextId := db1.nextId + 1 } : DB) with hdb2
  have hrev : db1.swipes.find? (fun s => s.user == u && s.profile == u && s.action == SwipeAction.like) = some swipe := by
    rw [hdb1]
    simp only [List.find?_append]
    have h1 : db.swipes.find? (fun s => s.user == u && s.profile == u && s.action == SwipeAction.like) = none := by
      rw [List.find?_eq_none]
      intro s hs
      simp only [Bool.and_eq_true, beq_iff_eq, not_and]
      intro h1
      exact fun _ => absurd h1 (hnoswipe s hs)
    rw [h1]
    simp [hswipe]
  have hcmm : checkMutualMatch db1 u u = Except.ok (db2, some ({ id := db1.nextId, user1 := u, user2 := u, matchedAt := db1.now, conversationStarted := false, profile := transformUser dto } : MatchRecord)) := by
    unfold checkMutualMatch
    rw [hrev]
    have hle : (u ≤ u) = True := by simp
    have hnomatch1 : db1.«matches».any (fun m => m.user1 == u && m.user2 == u) = false := by
      rw [hdb1]
      exact hnomatch
    simp only [hle, if_true, hnomatch1, Bool.false_eq_true, if_false]
    have hget1 : getUserById db2 u = Except.ok (transformUser dto) := by
      unfold getUserById
      have : db2.users = db.users := by rw [hdb2, hdb1]
      rw [this, hfind]
    rw [hget1]
  unfold recordSwipe
  rw [hget]
  simp only [hnodup, Bool.false_eq_true, if_false, Nat.not_lt.mpr hlen, beq_self_eq_true,
    if_true, ← hswipe, ← hdb1, hcmm]
  refine ⟨db2, ?_, ?_⟩
  · simp [hswipe, hdb1]
  · rw [hdb2]
    simp [hrow, hdb1]

/-- C8 concrete store record: one lone user. -/
def dtoW8 : UserDTO :=
  { id := "solo", name := "Solo", age := 30, role := Role.Mentor,
    latitude := 0, longitude := 0, minAge := 25, maxAge := 35,
    maxDistance := some 50 }

/-- C8 concrete store: the lone user, no swipes, no matches. -/
def dbW8 : DB :=
  { users := [dtoW8], swipes := [], «matches» := [], connections := [],
    nextId := 5, now := 42 }

/-- C8 witness: on `dbW8`, the self-like of `solo` immediately answers
"It's a match!" with a `(solo, solo)` match, and the match row is stored. -/
theorem C8_witness :
    ∃ db', recordSwipe dbW8 "solo" "solo" SwipeAction.like = Except.ok (db', .ok
      { swipe := { id := 5, user := "solo", profile := "solo",
                   action := SwipeAction.like, created := 42 }
        matchRec := some { id := 6, user1 := "solo", user2 := "solo",
                           matchedAt := 42, conversationStarted := false,
                           profile := transformUser dtoW8 }
        message := "It's a match!" }) ∧
      ({ id := 6, user1 := "solo", user2 := "solo", matchedAt := 42,
         conversationStarted := false } : MatchRow) ∈ db'.«matches» :=
  C8_self_swipe_match dbW8 "solo" dtoW8 rfl (by decide)
    (by intro s hs; simp [dbW8] at hs)
    (by intro m hm; simp [dbW8] at hm)

/-! ## Legacy connection accumulation (C5) -/

/-- `getUserById` reads only the `users` collection. -/
theorem getUserById_users (db db' : DB) (h : db'.users = db.users) (id : String) :
    getUserById db' id = getUserById db id := by
  unfold getUserById
  rw [h]

/-- `oppositePool` reads only the `users` collection. -/
theorem oppositePool_users (db db' : DB) (h : db'.users = db.users) (role : Role) :
    oppositePool db' role = oppositePool db role := by
  cases role <;> simp [oppositePool, getMentors, getMentees, getUsersByRole, h]

/-- After replacing the row a lookup found by a new row that also satisfies
the lookup predicate, the lookup finds the new row. -/
theorem find?_map_update (P : ConnectionRow → Bool) (l : List ConnectionRow)
    (c : ConnectionRow) (h : l.find? P = some c)
    (row' : ConnectionRow) (hrow : P row' = true) :
    (l.map (fun r => if r.id == c.id then row' else r)).find? P = some row' := by
  induction l with
  | nil => simp at h
  | cons a l ih =>
    by_cases pa : P a = true
    · rw [List.find?_cons_of_pos _ pa] at h
      have hca : a = c := by simpa using h
      subst hca
      simp only [List.map_cons, beq_self_eq_true, if_true]
      exact List.find?_cons_of_pos _ hrow
    · rw [List.find?_cons_of_neg _ pa] at h
      by_cases pid : (a.id == c.id) = true
      · simp only [List.map_cons, pid, if_true]
        exact List.find?_cons_of_pos _ hrow
      · simp only [List.map_cons, pid, Bool.false_eq_true, if_false]
        rw [List.find?_cons_of_neg _ pa]
        exact ih h

/-- A lookup that fails on a list succeeds on the single appended element
satisfying the predicate. -/
theorem find?_append_singleton {α : Type} (p : α → Bool) (l : List α) (a : α)
    (h : l.find? p = none) (ha : p a = true) : (l ++ [a]).find? p = some a := by
  rw [List.find?_append, h]
  simp [List.find?_cons_of_pos _ ha]

/-- Distinct stored user ids give distinct ids for any filtered, transformed
and again filtered selection of the store. -/
theorem nodup_ids_selection (l : List UserDTO)
    (hnodup : (l.map (fun d => d.id)).Nodup) (p : UserDTO → Bool)
    (q : User → Bool) :
    ((((l.filter p).map transformUser).filter q).map (fun u => u.id)).Nodup := by
  have h1 : ((((l.filter p).map transformUser).filter q).map (fun u => u.id)).Sublist
      (((l.filter p).map transformUser).map (fun u => u.id)) :=
    List.Sublist.map _ (List.filter_sublist _)
  have h2 : (((l.filter p).map transformUser).map (fun u => u.id)) =
      (l.filter p).map (fun d => d.id) := by
    rw [List.map_map]
    rfl
  have h3 : ((l.filter p).map (fun d => d.id)).Sublist (l.map (fun d => d.id)) :=
    List.Sublist.map _ (List.filter_sublist _)
  rw [h2] at h1
  exact (h1.trans h3).nodup hnodup

/-- The matched ids of a legacy run have no duplicates when the stored user
ids have none. -/
theorem nodup_matched_ids (db : DB)
    (hnodup : (db.users.map (fun d => d.id)).Nodup)
    (dist : ℚ × ℚ → ℚ × ℚ → ℚ) (cu : User) :
    ((findMatches dist cu (oppositePool db cu.role)).map (fun u => u.id)).Nodup := by
  cases hrole : cu.role <;>
    simpa [findMatches, oppositePool, hrole, getMentors, getMentees, getUsersByRole]
      using nodup_ids_selection db.users hnodup _ _

/-- The ids handed to `saveMatches` by the legacy route:
`matchedUsers.map(user => user.id)` over the computed matches. -/
def legacyMatchedIds (dist : ℚ × ℚ → ℚ × ℚ → ℚ) (db : DB) (cu : User) : List String :=
  (findMatches dist cu (oppositePool db cu.role)).map (fun u => u.id)

/-- C5: the legacy route appends without de-duplication.  With an existing
Connection row `c`, one further run leaves a row with the same id and
initiator whose list is exactly `c.connections` with the freshly matched ids
appended (nothing removed or reordered).  Starting with no row, two runs over
an unchanged candidate pool leave a row whose list is the matched ids twice
over, so each matched id occurs exactly twice. -/
theorem C5_legacy_accumulation (dist : ℚ × ℚ → ℚ × ℚ → ℚ) (db : DB)
    (id : String) (cu : User) (hcur : getUserById db id = Except.ok cu)
    (hne : findMatches dist cu (oppositePool db cu.role) ≠ [])
    (hnodup : (db.users.map (fun d => d.id)).Nodup) :
    (∀ c, getConnection db cu.id = some c →
      ∃ db1 resp, matchUserHandler dist db id = Except.ok (db1, resp) ∧
        getConnection db1 cu.id = some { id := c.id, initiator := c.initiator, connections := c.connections ++ legacyMatchedIds dist db cu }) ∧
    (getConnection db cu.id = none →
      ∃ db1 r1 db2 r2, matchUserHandler dist db id = Except.ok (db1, r1) ∧
        matchUserHandler dist db1 id = Except.ok (db2, r2) ∧
        getConnection db2 cu.id = some { id := db.nextId, initiator := cu.id, connections := legacyMatchedIds dist db cu ++ legacyMatchedIds dist db cu } ∧
        ∀ x ∈ legacyMatchedIds dist db cu,
          (legacyMatchedIds dist db cu ++ legacyMatchedIds dist db cu).count x = 2) := by
  have hie : (findMatches dist cu (oppositePool db cu.role)).isEmpty = false :=
    List.isEmpty_eq_false.mpr hne
  constructor
  · intro c hc
    have hc' : db.connections.find? (fun r => r.initiator == cu.id) = some c := hc
    have hcP : (c.initiator == cu.id) = true := by
      have := List.find?_some hc'
      simpa using this
    unfold matchUserHandler
    rw [hcur]
    simp only [hie, Bool.false_eq_true, if_false, saveMatches, getConnection, hc',
      updateConnection]
    refine ⟨_, _, rfl, ?_⟩
    exact find?_map_update (fun r => r.initiator == cu.id) db.connections c hc'
      _ hcP
  · intro hc0
    have hc0' : db.connections.find? (fun r => r.initiator == cu.id) = none := hc0
    -- first run: creates the row
    set rowNew : ConnectionRow := ({ id := db.nextId, initiator := cu.id, connections := legacyMatchedIds dist db cu } : ConnectionRow) with hrowNew
    set db1 : DB := ({ db with connections := db.connections ++ [rowNew], nextId := db.nextId + 1 } : DB) with hdb1
    have hrun1 : ∃ r1, matchUserHandler dist db id = Except.ok (db1, r1) := by
      unfold matchUserHandler
      rw [hcur]
      simp only [hie, Bool.false_eq_true, if_false, saveMatches, getConnection, hc0',
        createConnection]
      exact ⟨_, rfl⟩
    -- the second run sees the same user, pool and matches
    have husers : db1.users = db.users := by rw [hdb1]
    have hcur1 : getUserById db1 id = Except.ok cu := by
      rw [getUserById_users db db1 husers]
      exact hcur
    have hpool : oppositePool db1 cu.role = oppositePool db cu.role :=
      oppositePool_users db db1 husers cu.role
    have hids1 : legacyMatchedIds dist db1 cu = legacyMatchedIds dist db cu := by
      unfold legacyMatchedIds
      rw [hpool]
    have hie1 : (findMatches dist cu (oppositePool db1 cu.role)).isEmpty = false := by
      rw [hpool]
      exact hie
    have hconn1 : db1.connections.find? (fun r => r.initiator == cu.id) = some rowNew := by
      rw [hdb1]
      exact find?_append_singleton _ db.connections rowNew hc0'
        (by rw [hrowNew]; exact beq_self_eq_true cu.id)
    set row2 : ConnectionRow := ({ id := rowNew.id, initiator := rowNew.initiator, connections := rowNew.connections ++ legacyMatchedIds dist db1 cu } : ConnectionRow) with hrow2
    set db2 : DB := ({ db1 with connections := db1.connections.map (fun r => if r.id == rowNew.id then row2 else r) } : DB) with hdb2
    have hrun2 : ∃ r2, matchUserHandler dist db1 id = Except.ok (db2, r2) := by
      unfold matchUserHandler
      rw [hcur1]
      simp only [hie1, Bool.false_eq_true, if_false, saveMatches, getConnection, hconn1,
        updateConnection]
      exact ⟨_, rfl⟩
    obtain ⟨r1, hr1⟩ := hrun1
    obtain ⟨r2, hr2⟩ := hrun2
    refine ⟨db1, r1, db2, r2, hr1, hr2, ?_, ?_⟩
    · have hfin : db2.connections.find? (fun r => r.initiator == cu.id) = some row2 := by
        rw [hdb2]
        exact find?_map_update (fun r => r.initiator == cu.id) db1.connections rowNew
          hconn1 row2 (by rw [hrow2, hrowNew]; exact beq_self_eq_true cu.id)
      rw [getConnection, hfin, hrow2, hrowNew, hids1]
    · intro x hx
      have hidnodup : (legacyMatchedIds dist db cu).Nodup := by
        unfold legacyMatchedIds
        exact nodup_matched_ids db hnodup dist cu
      rw [List.count_append]
      rw [List.count_eq_one_of_mem hidnodup hx]

/-- Zero distance function for the C5 witness. -/
def distW5 : ℚ × ℚ → ℚ × ℚ → ℚ := fun _ _ => 0

/-- C5 concrete mentor record. -/
def dtoW5m : UserDTO :=
  { id := "m5", name := "Mentor Five", age := 30, role := Role.Mentor,
    latitude := 0, longitude := 0, minAge := 25, maxAge := 35,
    maxDistance := some 0 }

/-- C5 concrete mentee record, compatible with the mentor. -/
def dtoW5e : UserDTO :=
  { id := "e5", name := "Mentee Five", age := 28, role := Role.Mentee,
    latitude := 0, longitude := 0, minAge := 20, maxAge := 40,
    maxDistance := some 0 }

/-- C5 concrete store: the pair above, no Connection row yet. -/
def dbW5 : DB :=
  { users := [dtoW5m, dtoW5e], swipes := [], «matches» := [], connections := [],
    nextId := 1, now := 0 }

/-- C5 witness: running the legacy route twice for the mentor leaves a
Connection row whose list holds the matched mentee id twice. -/
theorem C5_witness :
    ∃ db1 r1 db2 r2, matchUserHandler distW5 dbW5 "m5" = Except.ok (db1, r1) ∧
      matchUserHandler distW5 db1 "m5" = Except.ok (db2, r2) ∧
      getConnection db2 "m5" =
        some { id := 1, initiator := "m5", connections := ["e5", "e5"] } := by
  have h := (C5_legacy_accumulation distW5 dbW5 "m5" (transformUser dtoW5m)
    rfl (by decide) (by decide)).2 rfl
  obtain ⟨db1, r1, db2, r2, h1, h2, h3, _⟩ := h
  have hids : legacyMatchedIds distW5 dbW5 (transformUser dtoW5m) = ["e5"] := by decide
  rw [hids] at h3
  exact ⟨db1, r1, db2, r2, h1, h2, h3⟩

/-! ## Match-creation conflict on re-detected mutuality (C2) -/

/-- At most one Match row per canonical `(user1, user2)` pair — the content
of the UNIQUE `idx_matches_unique` store index. -/
def pairUnique (db : DB) : Prop :=
  db.«matches».Pairwise (fun m m' => ¬(m.user1 = m'.user1 ∧ m.user2 = m'.user2))

/-- C2 counterexample store: mutual likes of `a2` and `b2` and an
already-existing canonical Match row for the pair. -/
def dbC2 : DB :=
  { users := [
      { id := "a2", name := "A Two", age := 30, role := Role.Mentor,
        latitude := 0, longitude := 0, minAge := 25, maxAge := 35,
        maxDistance := some 0 },
      { id := "b2", name := "B Two", age := 28, role := Role.Mentee,
        latitude := 0, longitude := 0, minAge := 20, maxAge := 40,
        maxDistance := some 0 }],
    swipes := [
      { id := 0, user := "a2", profile := "b2", action := SwipeAction.like, created := 2 },
      { id := 1, user := "b2", profile := "a2", action := SwipeAction.like, created := 3 }],
    «matches» := [{ id := 2, user1 := "a2", user2 := "b2", matchedAt := 3,
                    conversationStarted := false }],
    connections := [], nextId := 3, now := 9 }

/-- C2 counterexample: with the reverse like present and the canonical Match
row already existing, re-detected mutuality does *not* return the existing
Match — `checkMutualMatch` fails with the uncaught unique-index violation. -/
theorem C2_counterexample :
    checkMutualMatch dbC2 "a2" "b2" = Except.error ApiErr.pbConstraint := by
  have hab : ("a2" : String) ≤ "b2" := by
    rw [String.le_iff_toList_le]
    decide
  have h1 : dbC2.swipes.find? (fun s => s.user == "b2" && s.profile == "a2" && s.action == SwipeAction.like) = some { id := 1, user := "b2", profile := "a2", action := SwipeAction.like, created := 3 } := rfl
  have h2 : dbC2.«matches».any (fun m => m.user1 == "a2" && m.user2 == "b2") = true := rfl
  unfold checkMutualMatch
  rw [h1]
  simp only [if_pos hab, h2, if_true]

/-- C2 (amended): re-detected mutuality on an existing canonical pair does
not return the existing Match — the unguarded `matches.create` hits the
UNIQUE `idx_matches_unique` index and `checkMutualMatch` re-throws the
resulting constraint error (its catch handles only the 404 "no reverse like"
case); the index does keep the store at one Match row per canonical pair:
every successful `recordSwipe` preserves `pairUnique`. -/
theorem C2_match_conflict_amended (userId profileId : String) :
    (∀ db : DB,
      (db.swipes.find? (fun s => s.user == profileId && s.profile == userId &&
        s.action == SwipeAction.like)).isSome = true →
      db.«matches».any (fun m =>
        m.user1 == (if userId ≤ profileId then userId else profileId) &&
        m.user2 == (if userId ≤ profileId then profileId else userId)) = true →
      checkMutualMatch db userId profileId = Except.error ApiErr.pbConstraint) ∧
    (∀ (db db' : DB) (act : SwipeAction) (r : SwipeRouteResult), pairUnique db →
      recordSwipe db userId profileId act = Except.ok (db', r) → pairUnique db') := by
  have hmutual : ∀ (db db1 : DB), db1.«matches» = db.«matches» → pairUnique db →
      ∀ (db2 : DB) (m : Option MatchRecord),
        checkMutualMatch db1 userId profileId = Except.ok (db2, m) →
        pairUnique db2 := by
    intro db db1 hmeq hpu db2 m h
    unfold checkMutualMatch at h
    split at h
    · injection h with h1
      injection h1 with h2 h3
      subst h2
      unfold pairUnique
      rw [hmeq]
      exact hpu
    · dsimp only at h
      set u1 := (if userId ≤ profileId then userId else profileId : String) with hu1
      set u2 := (if userId ≤ profileId then profileId else userId : String) with hu2
      split at h
      · simp at h
      · split at h
        · simp at h
        · injection h with h1
          injection h1 with h2 h3
          subst h2
          have hnotex : (db1.«matches».any fun m => m.user1 == u1 && m.user2 == u2) = false := by
            have hh := ‹¬(db1.«matches».any fun m => m.user1 == u1 && m.user2 == u2) = true›
            simpa using hh
          unfold pairUnique
          dsimp only
          rw [List.pairwise_append]
          refine ⟨by rw [hmeq]; exact hpu, List.pairwise_singleton _ _, ?_⟩
          intro a ha b hb
          rw [List.mem_singleton] at hb
          subst hb
          rw [List.any_eq_false] at hnotex
          have hna := hnotex a ha
          simp only [Bool.and_eq_true, beq_iff_eq, not_and] at hna
          dsimp only
          intro hcon
          exact hna hcon.1 hcon.2
  constructor
  · intro db h1 h2
    obtain ⟨sw, hsw⟩ := Option.isSome_iff_exists.mp h1
    unfold checkMutualMatch
    rw [hsw]
    dsimp only
    rw [if_pos h2]
  · intro db db' act r hpu h
    unfold recordSwipe at h
    split at h
    · simp at h
    · split at h
      · simp at h
      · split at h
        · simp at h
        · split at h
          · injection h with h1
            injection h1 with h2 h3
            subst h2
            exact hpu
          · dsimp only at h
            split at h
            · simp at h
            · rename_i db2m mm hcmm
              injection h with h1
              injection h1 with h2 h3
              subst h2
              split at hcmm
              · refine hmutual db _ ?_ hpu db2m mm hcmm
                rfl
              · injection hcmm with h4
                injection h4 with h5 h6
                subst h5
                exact hpu

/-- C2 witness store: the mutual pair with the match row, but `a2` has not
yet swiped `b2`. -/
def dbW2 : DB :=
  { users := dbC2.users,
    swipes := [{ id := 0, user := "b2", profile := "a2",
                 action := SwipeAction.like, created := 3 }],
    «matches» := [{ id := 1, user1 := "a2", user2 := "b2", matchedAt := 3,
                    conversationStarted := false }],
    connections := [], nextId := 5, now := 9 }

/-- C2 witness: on `dbC2` the conflict branch of the amended theorem fires
concretely, and a successful `recordSwipe` (a pass by `a2` on `b2` over
`dbW2`) preserves the one-row-per-pair invariant. -/
theorem C2_witness :
    checkMutualMatch dbC2 "a2" "b2" = Except.error ApiErr.pbConstraint ∧
      pairUnique { dbW2 with
        swipes := dbW2.swipes ++ [{ id := 5, user := "a2", profile := "b2",
                                    action := SwipeAction.pass, created := 9 }],
        nextId := 6 } := by
  have h := C2_match_conflict_amended "a2" "b2"
  have hab : ("a2" : String) ≤ "b2" := by
    rw [String.le_iff_toList_le]
    decide
  constructor
  · refine h.1 dbC2 (by rfl) ?_
    rw [if_pos hab, if_pos hab]
    decide
  · have hpu : pairUnique dbW2 := by
      unfold pairUnique
      exact List.pairwise_singleton _ _
    exact h.2 dbW2 _ SwipeAction.pass
      (.ok { swipe := { id := 5, user := "a2", profile := "b2",
                        action := SwipeAction.pass, created := 9 },
             matchRec := none, message := "Swipe recorded" }) hpu rfl

/-! ## Mutual matches listing (C7) -/

/-- The Match rows with the user on either side, most recent first — the
route's filtered and `-matchedAt`-sorted store query. -/
def partyRows (db : DB) (userId : String) : List MatchRow :=
  sortByMatchedAtDesc
    (db.«matches».filter (fun m => m.user1 == userId || m.user2 == userId))

/-- `match.user1 === userId ? match.user2 : match.user1` — the other party of
a match row. -/
def counterpartId (userId : String) (m : MatchRow) : String :=
  if m.user1 == userId then m.user2 else m.user1

/-- The profiles fetched for the counterpart ids. -/
def mutualProfiles (db : DB) (userId : String) : List User :=
  getUsersByIds db ((partyRows db userId).map (counterpartId userId))

/-- One enrichment step: `profileMap.get` on the counterpart id, dropped when
the profile is missing. -/
def enrichRow (db : DB) (userId : String) (m : MatchRow) : Option MatchItem :=
  match profileMapGet (mutualProfiles db userId) (counterpartId userId m) with
  | none => none
  | some profile =>
    some { matchId := m.id, profile := profile, matchedAt := m.matchedAt,
           conversationStarted := m.conversationStarted }

/-- The route's response is the enrichment pipeline over the sorted party
rows, with `count` its length — in the no-match branch and the main branch
alike. -/
theorem getMutualMatches_eq (db : DB) (userId : String) :
    getMutualMatches db userId =
      { «matches» := (partyRows db userId).filterMap (enrichRow db userId),
        count := ((partyRows db userId).filterMap (enrichRow db userId)).length } := by
  unfold getMutualMatches
  dsimp only
  split
  · next hempty =>
    have hnil : partyRows db userId = [] := by
      have := List.isEmpty_iff.mp hempty
      unfold partyRows
      exact List.map_eq_nil.mp this
    rw [hnil]
    rfl
  · rw [List.filterMap_map]
    unfold enrichRow mutualProfiles counterpartId partyRows
    rw [List.map_map]
    rfl

/-- The store's descending `matchedAt` sort is pairwise descending. -/
theorem sortByMatchedAtDesc_pairwise (rows : List MatchRow) :
    List.Pairwise (fun a b => b.matchedAt ≤ a.matchedAt)
      (sortByMatchedAtDesc rows) := by
  have t1 : ∀ a b c : MatchRow, decide (b.matchedAt ≤ a.matchedAt) = true →
      decide (c.matchedAt ≤ b.matchedAt) = true →
      decide (c.matchedAt ≤ a.matchedAt) = true := by
    intro a b c h1 h2
    simp only [decide_eq_true_eq] at h1 h2 ⊢
    omega
  have t2 : ∀ a b : MatchRow, (decide (b.matchedAt ≤ a.matchedAt) ||
      decide (a.matchedAt ≤ b.matchedAt)) = true := by
    intro a b
    simp only [Bool.or_eq_true, decide_eq_true_eq]
    omega
  have h := List.sorted_mergeSort t1 t2 rows
  exact h.imp (fun hab => by simpa using hab)

/-- Descending order by key survives a `filterMap` whose successful results
keep the key. -/
theorem pairwise_filterMap_le {α β : Type} (keyA : α → Nat) (keyB : β → Nat)
    (g : α → Option β) (hg : ∀ a b, g a = some b → keyB b = keyA a)
    (l : List α) (hl : List.Pairwise (fun x y => keyA y ≤ keyA x) l) :
    List.Pairwise (fun x y => keyB y ≤ keyB x) (l.filterMap g) := by
  induction l with
  | nil => simp
  | cons a l ih =>
    rcases List.pairwise_cons.mp hl with ⟨ha, hl'⟩
    cases hga : g a with
    | none =>
      rw [List.filterMap_cons_none hga]
      exact ih hl'
    | some b =>
      rw [List.filterMap_cons_some hga, List.pairwise_cons]
      refine ⟨?_, ih hl'⟩
      intro c hc
      rcases List.mem_filterMap.mp hc with ⟨a', ha', hga'⟩
      rw [hg a' c hga', hg a b hga]
      exact ha a' ha'

/-- C7: `GetMutualMatches` returns exactly the Match rows with the user on
either side, each resolved to the counterpart's stored profile with
`matchId`, `matchedAt` and `conversationStarted`, sorted descending by
`matchedAt`; a row whose counterpart profile is missing is silently skipped
(the function totally returns a response, never an error); and `count` is
the number of returned entries.  The distinct-row-id hypothesis mirrors the
store's primary key. -/
theorem C7_get_mutual_matches (db : DB) (userId : String)
    (hnodupIds : (db.«matches».map (fun m => m.id)).Nodup) :
    (getMutualMatches db userId).count = (getMutualMatches db userId).«matches».length ∧
    List.Sorted (fun a b => a ≥ b)
      (((getMutualMatches db userId).«matches»).map (fun it => it.matchedAt)) ∧
    (∀ it ∈ (getMutualMatches db userId).«matches», ∃ m ∈ db.«matches»,
      (m.user1 = userId ∨ m.user2 = userId) ∧ it.matchId = m.id ∧
      it.matchedAt = m.matchedAt ∧ it.conversationStarted = m.conversationStarted ∧
      ∃ dto ∈ db.users, dto.id = counterpartId userId m ∧ it.profile = transformUser dto) ∧
    (∀ m ∈ db.«matches», (m.user1 = userId ∨ m.user2 = userId) →
      (∃ dto ∈ db.users, dto.id = counterpartId userId m) →
      ∃ it ∈ (getMutualMatches db userId).«matches», it.matchId = m.id) ∧
    (∀ m ∈ db.«matches», (m.user1 = userId ∨ m.user2 = userId) →
      (¬ ∃ dto ∈ db.users, dto.id = counterpartId userId m) →
      ∀ it ∈ (getMutualMatches db userId).«matches», it.matchId ≠ m.id) := by
  have hparty_mem : ∀ m : MatchRow, m ∈ partyRows db userId ↔
      (m ∈ db.«matches» ∧ (m.user1 == userId || m.user2 == userId) = true) := by
    intro m
    unfold partyRows sortByMatchedAtDesc
    rw [List.mem_mergeSort, List.mem_filter]
  have hsound : ∀ it ∈ (partyRows db userId).filterMap (enrichRow db userId),
      ∃ m ∈ db.«matches», (m.user1 = userId ∨ m.user2 = userId) ∧ it.matchId = m.id ∧
        it.matchedAt = m.matchedAt ∧ it.conversationStarted = m.conversationStarted ∧
        ∃ dto ∈ db.users, dto.id = counterpartId userId m ∧
          it.profile = transformUser dto := by
    intro it hit
    rcases List.mem_filterMap.mp hit with ⟨m, hmsrt, hg⟩
    rcases (hparty_mem m).mp hmsrt with ⟨hmdb, hp⟩
    have hpor : m.user1 = userId ∨ m.user2 = userId := by simpa using hp
    unfold enrichRow at hg
    cases hpm : profileMapGet (mutualProfiles db userId) (counterpartId userId m) with
    | none =>
      rw [hpm] at hg
      exact absurd hg (by simp)
    | some pr =>
      rw [hpm] at hg
      injection hg with hg'
      subst hg'
      unfold profileMapGet at hpm
      have hprid := List.find?_some hpm
      have hprmem : pr ∈ mutualProfiles db userId :=
        List.mem_reverse.mp (List.mem_of_find?_eq_some hpm)
      unfold mutualProfiles getUsersByIds at hprmem
      by_cases hids : ((partyRows db userId).map (counterpartId userId)).isEmpty = true
      · rw [if_pos hids] at hprmem
        exact absurd hprmem (by simp)
      · rw [if_neg hids] at hprmem
        rcases List.mem_map.mp hprmem with ⟨dto, hdfil, hdeq⟩
        have hddb : dto ∈ db.users := List.mem_of_mem_filter hdfil
        refine ⟨m, hmdb, hpor, rfl, rfl, rfl, dto, hddb, ?_, hdeq.symm⟩
        have hpid : pr.id = counterpartId userId m := by simpa using hprid
        rw [← hpid, ← hdeq]
        rfl
  have hcomp : ∀ m ∈ db.«matches», (m.user1 = userId ∨ m.user2 = userId) →
      (∃ dto ∈ db.users, dto.id = counterpartId userId m) →
      ∃ it ∈ (partyRows db userId).filterMap (enrichRow db userId),
        it.matchId = m.id := by
    intro m hm hpor hres
    rcases hres with ⟨dto, hdmem, hdid⟩
    have hp : (m.user1 == userId || m.user2 == userId) = true := by
      rcases hpor with h | h <;> simp [h]
    have hmsrt : m ∈ partyRows db userId := (hparty_mem m).mpr ⟨hm, hp⟩
    have hcid : counterpartId userId m ∈ (partyRows db userId).map (counterpartId userId) :=
      List.mem_map_of_mem _ hmsrt
    have hne : ((partyRows db userId).map (counterpartId userId)) ≠ [] :=
      List.ne_nil_of_mem hcid
    have hie : ((partyRows db userId).map (counterpartId userId)).isEmpty = false :=
      List.isEmpty_eq_false.mpr hne
    have htmem : transformUser dto ∈ mutualProfiles db userId := by
      unfold mutualProfiles getUsersByIds
      rw [if_neg (by rw [hie]; exact Bool.false_ne_true)]
      refine List.mem_map_of_mem _ (List.mem_filter.mpr ⟨hdmem, ?_⟩)
      rw [hdid]
      exact List.elem_eq_true_of_mem hcid
    have hfs : (((mutualProfiles db userId).reverse).find?
        (fun p => p.id == counterpartId userId m)).isSome = true := by
      rw [List.find?_isSome]
      refine ⟨transformUser dto, List.mem_reverse.mpr htmem, ?_⟩
      show ((transformUser dto).id == counterpartId userId m) = true
      rw [show (transformUser dto).id = dto.id from rfl, hdid]
      exact beq_self_eq_true _
    rcases Option.isSome_iff_exists.mp hfs with ⟨pr, hpr⟩
    refine ⟨{ matchId := m.id, profile := pr, matchedAt := m.matchedAt,
              conversationStarted := m.conversationStarted }, ?_, rfl⟩
    apply List.mem_filterMap.mpr
    refine ⟨m, hmsrt, ?_⟩
    unfold enrichRow profileMapGet
    rw [hpr]
  have hkey : ∀ a b, enrichRow db userId a = some b → b.matchedAt = a.matchedAt := by
    intro a b h
    unfold enrichRow at h
    cases hq : profileMapGet (mutualProfiles db userId) (counterpartId userId a) with
    | none =>
      rw [hq] at h
      exact absurd h (by simp)
    | some pr =>
      rw [hq] at h
      injection h with h'
      rw [← h']
  have hsorted : List.Sorted (fun a b => a ≥ b)
      (((partyRows db userId).filterMap (enrichRow db userId)).map
        (fun it => it.matchedAt)) := by
    apply List.pairwise_map.mpr
    have hpw : List.Pairwise (fun x y : MatchRow => y.matchedAt ≤ x.matchedAt)
        (partyRows db userId) := by
      unfold partyRows
      exact sortByMatchedAtDesc_pairwise _
    exact pairwise_filterMap_le MatchRow.matchedAt MatchItem.matchedAt
      (enrichRow db userId) hkey _ hpw
  have homit : ∀ m ∈ db.«matches», (m.user1 = userId ∨ m.user2 = userId) →
      (¬ ∃ dto ∈ db.users, dto.id = counterpartId userId m) →
      ∀ it ∈ (partyRows db userId).filterMap (enrichRow db userId),
        it.matchId ≠ m.id := by
    intro m hm hpor hnores it hit heq
    rcases hsound it hit with ⟨m', hm', hpor', hid', _, _, dto, hdm, hdid, _⟩
    have hmm : m' = m := List.inj_on_of_nodup_map hnodupIds hm' hm
      (by rw [← hid']; exact heq)
    subst hmm
    exact hnores ⟨dto, hdm, hdid⟩
  rw [getMutualMatches_eq]
  exact ⟨rfl, hsorted, hsound, hcomp, homit⟩

/-- C7 witness store: `u7` has two matches, one whose counterpart `v7`
exists and one whose counterpart `gone` has been deleted from the store. -/
def dbW7 : DB :=
  { users := [
      { id := "u7", name := "U Seven", age := 30, role := Role.Mentor,
        latitude := 0, longitude := 0, minAge := 25, maxAge := 35,
        maxDistance := some 0 },
      { id := "v7", name := "V Seven", age := 28, role := Role.Mentee,
        latitude := 0, longitude := 0, minAge := 20, maxAge := 40,
        maxDistance := some 0 }],
    swipes := [],
    «matches» := [
      { id := 1, user1 := "u7", user2 := "v7", matchedAt := 5,
        conversationStarted := false },
      { id := 2, user1 := "gone", user2 := "u7", matchedAt := 8,
        conversationStarted := true }],
    connections := [], nextId := 3, now := 9 }

/-- C7 witness: the mutual-matches theorem applied to `dbW7` — the count
matches the number of returned entries and the entries are sorted descending
by `matchedAt`, with the distinct-row-id hypothesis discharged concretely. -/
theorem C7_witness :
    (getMutualMatches dbW7 "u7").count =
      (getMutualMatches dbW7 "u7").«matches».length ∧
    List.Sorted (fun a b => a ≥ b)
      (((getMutualMatches dbW7 "u7").«matches»).map (fun it => it.matchedAt)) := by
  have h := C7_get_mutual_matches dbW7 "u7" (by decide)
  exact ⟨h.1, h.2.1⟩

end LMN
